import Mathlib

/-!
Verification development for the goflow repository (Go → WebAssembly frontend
framework).  The renderer (`renderer/renderer.go`) and the project scaffolding
(`cmd/init.go`) are embedded shallowly below; browser DOM state is modelled as
an explicit tree, `syscall/js` panics as explicit outcome constructors, and the
filesystem touched by `goflow init` as an explicit record.
-/

namespace GoFlow

/-- `vdom.VNodeType`: in Go this is an integer-backed enum with the two named
constants `VNodeText` and `VNodeElement`; `other` stands for any further
integer value, which the renderer's `switch` falls through on. -/
inductive VNodeType where
  | text
  | element
  | other
deriving DecidableEq, Repr

/-- `vdom.VNode`.  Event handlers are Go `func()` values (the renderer invokes
them as `handler()`, with no arguments); they are modelled by opaque `Nat`
identifiers.  `props` embeds `Props` with string values (the component layer
stringifies configuration before storage) and `handlers` embeds
`EventHandlers`. -/
inductive VNode where
  | mk (ty : VNodeType) (tag : String) (props : List (String × String))
       (handlers : List (String × Nat)) (txt : String) (children : List VNode)
deriving Repr

def VNode.ty : VNode → VNodeType
  | .mk t _ _ _ _ _ => t

def VNode.tag : VNode → String
  | .mk _ tg _ _ _ _ => tg

def VNode.props : VNode → List (String × String)
  | .mk _ _ ps _ _ _ => ps

def VNode.handlers : VNode → List (String × Nat)
  | .mk _ _ _ hs _ _ => hs

def VNode.txt : VNode → String
  | .mk _ _ _ _ tx _ => tx

def VNode.children : VNode → List VNode
  | .mk _ _ _ _ _ cs => cs

/-- A materialized host (browser DOM) node: a text node or an element carrying
tag, attributes, attached event listeners and child nodes. -/
inductive DomNode where
  | text (txt : String)
  | element (tag : String) (attrs : List (String × String))
            (listeners : List (String × Nat)) (children : List DomNode)

/-- Host `setAttribute` semantics on an attribute list: overwrite an existing
key in place, otherwise append. -/
def setAttr : List (String × String) → String → String → List (String × String)
  | [], k, v => [(k, v)]
  | (k0, v0) :: rest, k, v =>
      if k0 = k then (k, v) :: rest else (k0, v0) :: setAttr rest k v

/-- The attribute state after the renderer's loop
`for key, value := range vnode.Props { element.Call("setAttribute", key, value) }`,
starting from a freshly created element (no attributes). -/
def applyProps (props : List (String × String)) : List (String × String) :=
  props.foldl (fun acc kv => setAttr acc kv.1 kv.2) []

/-- Host `getAttribute` on a DOM node. -/
def DomNode.getAttribute : DomNode → String → Option String
  | .text _, _ => none
  | .element _ attrs _ _, k => (attrs.find? (fun a => a.1 == k)).map (fun a => a.2)

def DomNode.domChildren : DomNode → List DomNode
  | .text _ => []
  | .element _ _ _ cs => cs

/-- `(*Renderer).createDomNode` (renderer.go:32-68).  A text node maps to
`createTextNode`; an element maps to `createElement` + the attribute loop +
the listener loop + the child loop, which appends each child's node only when
it is truthy (`js.Null()`, returned for any unrecognized `Type`, is skipped).
`none` models the `js.Null()` return of the final line. -/
def createDomNode (v : VNode) : Option DomNode :=
  match v with
  | .mk ty tag props handlers txt children =>
    match ty with
    | .text => some (DomNode.text txt)
    | .element =>
        some (DomNode.element tag (applyProps props) handlers
          ((children.attach.map (fun c => createDomNode c.val)).reduceOption))
    | .other => none
termination_by sizeOf v
decreasing_by
  simp only [VNode.mk.sizeOf_spec]
  have h := List.sizeOf_lt_of_mem c.property
  omega

/-- The host container the renderer is bound to; only its child list is
relevant. -/
structure Container where
  children : List DomNode

/-- The host document, for `getElementById`. -/
def getElementById (doc : List (String × Container)) (id : String) : Option Container :=
  (doc.find? (fun e => e.1 == id)).map (fun e => e.2)

/-- `renderer.Renderer`: holds the `js.Value` obtained from `getElementById`,
which is JavaScript `null` (modelled `none`) when the id does not resolve. -/
structure Renderer where
  container : Option Container

/-- `NewRenderer` (renderer.go:15-21): resolves the container once and stores
it, performing no check and no diagnostic. -/
def NewRenderer (doc : List (String × Container)) (containerID : String) : Renderer :=
  ⟨getElementById doc containerID⟩

/-- Outcome of a `Render` call.  `syscall/js` turns host errors into Go
panics: `Value.Set` on a null value panics before anything is mutated
(`noContainer`), and `appendChild(js.Null())` throws after the container was
already cleared (`appendFailed`). -/
inductive RenderResult where
  | noContainer
  | appendFailed (c : Container)
  | done (c : Container)

/-- `(*Renderer).Render` (renderer.go:23-30): clear the container via
`innerHTML = ""`, then if the vnode is non-nil create its DOM node and append
it (with no truthiness check at this level). -/
def Render (r : Renderer) (vnode : Option VNode) : RenderResult :=
  match r.container with
  | none => .noContainer
  | some _ =>
      let cleared : Container := ⟨[]⟩
      match vnode with
      | none => .done cleared
      | some v =>
          match createDomNode v with
          | some d => .done ⟨cleared.children ++ [d]⟩
          | none => .appendFailed cleared

/-- The container state reported by an outcome, when one exists. -/
def RenderResult.containerChildren : RenderResult → Option (List DomNode)
  | .noContainer => none
  | .appendFailed c => some c.children
  | .done c => some c.children

/-- Unique keys in an association list, as the data model guarantees for
`Props` and `EventHandlers`. -/
def keysNodup {α : Type} : List (String × α) → Bool
  | [] => true
  | (k, _) :: rest => (rest.all (fun e => !(e.1 == k))) && keysNodup rest

/-- A VirtualNode tree of the data model: every node is one of the two
variants (Text or Element) and attribute keys are unique at every node. -/
def wellFormed (v : VNode) : Bool :=
  match v with
  | .mk ty _ props _ _ children =>
      (ty == .text || ty == .element) && keysNodup props &&
        children.attach.all (fun c => wellFormed c.val)
termination_by sizeOf v
decreasing_by
  simp only [VNode.mk.sizeOf_spec]
  have h := List.sizeOf_lt_of_mem c.property
  omega

theorem VNode.inductionOn {P : VNode → Prop}
    (h : ∀ ty tag props hs txt children,
      (∀ c ∈ children, P c) → P (VNode.mk ty tag props hs txt children)) :
    ∀ v, P v
  | .mk ty tag props hs txt children =>
      h ty tag props hs txt children (fun c hc => VNode.inductionOn h c)
termination_by v => sizeOf v
decreasing_by
  simp only [VNode.mk.sizeOf_spec]
  have h2 := List.sizeOf_lt_of_mem hc
  omega

/-- Modelled from the spec: the depth-first structural mapping the spec's
renderer contract describes for a two-variant VirtualNode tree — a Text node
becomes a host text node with the same payload; an Element node becomes a host
element with the same tag name, the same attribute set (keys unique per the
data model), its event listeners, and the mappings of its children in order. -/
def specMapNode (v : VNode) : DomNode :=
  match v with
  | .mk ty tag props hs txt children =>
    match ty with
    | .text => DomNode.text txt
    | _ =>
        DomNode.element tag props hs
          (children.attach.map (fun c => specMapNode c.val))
termination_by sizeOf v
decreasing_by
  simp only [VNode.mk.sizeOf_spec]
  have h := List.sizeOf_lt_of_mem c.property
  omega

theorem createDomNode_text (tag : String) (props : List (String × String))
    (hs : List (String × Nat)) (txt : String) (cs : List VNode) :
    createDomNode (.mk .text tag props hs txt cs) = some (.text txt) := by
  rw [createDomNode]

theorem createDomNode_other (tag : String) (props : List (String × String))
    (hs : List (String × Nat)) (txt : String) (cs : List VNode) :
    createDomNode (.mk .other tag props hs txt cs) = none := by
  rw [createDomNode]

theorem createDomNode_element (tag : String) (props : List (String × String))
    (hs : List (String × Nat)) (txt : String) (cs : List VNode) :
    createDomNode (.mk .element tag props hs txt cs) =
      some (.element tag (applyProps props) hs (cs.filterMap createDomNode)) := by
  rw [createDomNode]
  rw [List.attach_map_val]
  simp [List.reduceOption, List.filterMap_map]

theorem specMapNode_text (tag : String) (props : List (String × String))
    (hs : List (String × Nat)) (txt : String) (cs : List VNode) :
    specMapNode (.mk .text tag props hs txt cs) = .text txt := by
  rw [specMapNode]

theorem specMapNode_element (tag : String) (props : List (String × String))
    (hs : List (String × Nat)) (txt : String) (cs : List VNode) :
    specMapNode (.mk .element tag props hs txt cs) =
      .element tag props hs (cs.map specMapNode) := by
  rw [specMapNode]
  · rw [List.attach_map_val]
  · simp

theorem wellFormed_iff (ty : VNodeType) (tag : String)
    (props : List (String × String)) (hs : List (String × Nat)) (txt : String)
    (cs : List VNode) :
    wellFormed (.mk ty tag props hs txt cs) = true ↔
      (ty = .text ∨ ty = .element) ∧ keysNodup props = true ∧
        ∀ c ∈ cs, wellFormed c = true := by
  rw [wellFormed]
  simp only [Bool.and_eq_true, Bool.or_eq_true, beq_iff_eq, List.all_eq_true]
  constructor
  · rintro ⟨⟨hty, hk⟩, hcs⟩
    exact ⟨hty, hk, fun c hc => hcs ⟨c, hc⟩ (List.mem_attach _ _)⟩
  · rintro ⟨hty, hk, hcs⟩
    exact ⟨⟨hty, hk⟩, fun c _ => hcs c.val c.property⟩

theorem setAttr_fresh (attrs : List (String × String)) (k v : String)
    (h : attrs.all (fun a => !(a.1 == k)) = true) :
    setAttr attrs k v = attrs ++ [(k, v)] := by
  induction attrs with
  | nil => rfl
  | cons a rest ih =>
      obtain ⟨k0, v0⟩ := a
      simp only [List.all_cons, Bool.and_eq_true, Bool.not_eq_true', beq_eq_false_iff_ne,
        ne_eq] at h
      simp only [setAttr, List.cons_append]
      rw [if_neg h.1, ih h.2]

theorem foldl_setAttr (props : List (String × String)) :
    ∀ acc : List (String × String), keysNodup props = true →
    (∀ kv ∈ props, acc.all (fun a => !(a.1 == kv.1)) = true) →
    props.foldl (fun a kv => setAttr a kv.1 kv.2) acc = acc ++ props := by
  induction props with
  | nil => intro acc _ _; simp
  | cons kv rest ih =>
      intro acc hnd hfresh
      simp only [keysNodup, Bool.and_eq_true] at hnd
      simp only [List.foldl_cons]
      rw [setAttr_fresh acc kv.1 kv.2 (hfresh kv (List.mem_cons_self _ _))]
      rw [ih (acc ++ [(kv.1, kv.2)]) hnd.2]
      · simp
      · intro kv2 hkv2
        simp only [List.all_append, Bool.and_eq_true]
        refine ⟨hfresh kv2 (List.mem_cons_of_mem _ hkv2), ?_⟩
        have h3 := (List.all_eq_true.mp hnd.1) kv2 hkv2
        simp only [List.all_cons, List.all_nil, Bool.and_true]
        simpa using fun h => by simp [h] at h3

/-- Applying the renderer's `setAttribute` loop to a fresh element reproduces
exactly the vnode's attribute list when its keys are unique. -/
theorem applyProps_of_nodup (props : List (String × String))
    (h : keysNodup props = true) : applyProps props = props := by
  have h2 := foldl_setAttr props [] h (fun kv _ => rfl)
  simpa [applyProps] using h2

theorem find?_of_mem_nodup {α : Type} (props : List (String × α)) (k : String)
    (v : α) (hnd : keysNodup props = true) (hmem : (k, v) ∈ props) :
    props.find? (fun a => a.1 == k) = some (k, v) := by
  induction props with
  | nil => cases hmem
  | cons a rest ih =>
      simp only [keysNodup, Bool.and_eq_true] at hnd
      rcases List.mem_cons.mp hmem with heq | hmem2
      · subst heq
        rw [List.find?_cons_of_pos _ (by simp)]
      · have hne : a.1 ≠ k := by
          have h3 := (List.all_eq_true.mp hnd.1) (k, v) hmem2
          simp only [Bool.not_eq_true', beq_eq_false_iff_ne, ne_eq] at h3
          exact fun h => h3 h.symm
        rw [List.find?_cons_of_neg _ (by simpa using hne)]
        exact ih hnd.2 hmem2

theorem filterMap_eq_map_of_forall {α β : Type} (f : α → Option β) (g : α → β)
    (l : List α) (h : ∀ c ∈ l, f c = some (g c)) : l.filterMap f = l.map g := by
  induction l with
  | nil => rfl
  | cons c rest ih =>
      rw [List.filterMap_cons, h c (List.mem_cons_self _ _), List.map_cons]
      rw [ih (fun c2 hc2 => h c2 (List.mem_cons_of_mem _ hc2))]

/-- On every well-formed VirtualNode tree the renderer's `createDomNode`
computes exactly the spec's depth-first structural mapping. -/
theorem createDomNode_wf (v : VNode) (hwf : wellFormed v = true) :
    createDomNode v = some (specMapNode v) := by
  induction v using VNode.inductionOn with
  | h ty tag props hs txt cs ih =>
      rcases (wellFormed_iff ty tag props hs txt cs).mp hwf with ⟨hty, hnd, hcs⟩
      rcases hty with hty | hty
      · subst hty
        rw [createDomNode_text, specMapNode_text]
      · subst hty
        rw [createDomNode_element, specMapNode_element,
          applyProps_of_nodup props hnd,
          filterMap_eq_map_of_forall createDomNode specMapNode cs
            (fun c hc => ih c hc (hcs c hc))]

/-- What the Go callback receives when a listener fires.  Event handlers in
`vdom.VNode.EventHandlers` are `func()` values, so an invocation either
carries no argument (`nullary`) or — as the spec demands for change callbacks
— a string argument (`withValue`). -/
inductive Invocation where
  | nullary (handler : Nat)
  | withValue (handler : Nat) (value : String)
deriving DecidableEq, Repr

/-- The wrapper the renderer attaches (renderer.go:49-52):
`js.FuncOf(func(this js.Value, args []js.Value) interface\x7b\x7d \x7b handler(); return nil \x7d)`.
The native event (`args`), and hence the host-reported current value, is
ignored; the Go callback is invoked with no arguments. -/
def listenerInvoke (handler : Nat) (eventValue : String) : Invocation :=
  .nullary handler

/-- Dispatch one simulated native event of name `eventName`, whose target
reports current value `eventValue`, on a host node: every listener attached
under that event name fires once, in attachment order. -/
def dispatchEvent (d : DomNode) (eventName : String) (eventValue : String) :
    List Invocation :=
  match d with
  | .text _ => []
  | .element _ _ listeners _ =>
      (listeners.filter (fun l => l.1 == eventName)).map
        (fun l => listenerInvoke l.2 eventValue)

/-- Modelled from the spec: the `component` package is not under `src/`.  A
Button renders to an Element with tag `button`, its label as a single Text
child, and its click callback registered under event name `click`. -/
def buttonVNode (label : String) (onClick : Nat) : VNode :=
  .mk .element "button" [] [("click", onClick)] ""
    [.mk .text "" [] [] label []]

/-- Modelled from the spec: the `component` package is not under `src/`.  An
Input renders to an Element with tag `input`, a `type` attribute (default
`text`), its placeholder, and its change callback registered under event name
`change`. -/
def inputVNode (placeholder : String) (onChange : Nat) : VNode :=
  .mk .element "input" [("type", "text"), ("placeholder", placeholder)]
    [("change", onChange)] "" []

/-! Embedding of `cmd/init.go`.  File paths are modelled structurally as
(directory, file name) pairs — `filepath.Join(projectName, fileName)`. -/

/-- `mainGoTemplate` (init.go:185-220), transcribed byte for byte. -/
def mainGoTemplate : String :=
  "\npackage main\n\nimport (\n\t\"fmt\"\n\t\"syscall/js\"\n)\n\nfunc main() \x7b\n\tfmt.Println(\"Go Wasm app initialized.\")\n\n\t// Get the document object\n\tdocument := js.Global().Get(\"document\")\n\tif !document.Truthy() \x7b\n\t\tfmt.Println(\"Could not get document object\")\n\t\treturn\n\t\x7d\n\n\t// Get the app container\n\tappContainer := document.Call(\"getElementById\", \"app\")\n\tif !appContainer.Truthy() \x7b\n\t\tfmt.Println(\"Could not find element with id \x27app\x27\")\n\t\treturn\n\t\x7d\n\n\t// Create a new element\n\th1 := document.Call(\"createElement\", \"h1\")\n\th1.Set(\"textContent\", \"Hello, GoFlow! 🚀\")\n\n\t// Append the new element to the container\n\tappContainer.Call(\"appendChild\", h1)\n\n\t// Keep the Go program running\n\t<-make(chan bool)\n\x7d\n"

/-- `indexHTMLTemplate` (init.go:222-261), transcribed byte for byte. -/
def indexHTMLTemplate : String :=
  "\n<!DOCTYPE html>\n<html lang=\"en\">\n<head>\n    <meta charset=\"UTF-8\">\n    <meta name=\"viewport\" content=\"width=device-width, initial-scale=1.0\">\n    <title>GoFlow App</title>\n    <style>\n        body \x7b font-family: -apple-system, BlinkMacSystemFont, \x27Segoe UI\x27, Roboto, Helvetica, Arial, sans-serif; display: flex; justify-content: center; align-items: center; height: 100vh; margin: 0; background-color: #f0f2f5; \x7d\n        #app \x7b text-align: center; \x7d\n    </style>\n</head>\n<body>\n    <div id=\"app\">\n        <h2>Loading WebAssembly...</h2>\n\t\t<p>If you see this message, the Go Wasm module is loading or has failed to load. Check the browser console for errors.</p>\n    </div>\n\n    <!-- The JS glue file provided by the Go installation -->\n    <script src=\"wasm_exec.js\"></script>\n    <script>\n        if (!WebAssembly.instantiateStreaming) \x7b // polyfill\n            WebAssembly.instantiateStreaming = async (resp, importObject) => \x7b\n                const source = await (await resp).arrayBuffer();\n                return await WebAssembly.instantiate(source, importObject);\n            \x7d;\n        \x7d\n\n        const go = new Go();\n        WebAssembly.instantiateStreaming(fetch(\"app.wasm\"), go.importObject).then((result) => \x7b\n            go.run(result.instance);\n        \x7d).catch((err) => \x7b\n            console.error(\"Wasm instantiation failed:\", err);\n\t\t\tconst appDiv = document.getElementById(\x27app\x27);\n\t\t\tappDiv.innerHTML = \x27<h2 style=\"color: red;\">Error</h2><p>Failed to load WebAssembly module. Check console.</p>\x27;\n        \x7d);\n    </script>\n</body>\n</html>\n"

/-- `goModTemplate` (init.go:263-269): `fmt.Sprintf` splices the project
name. -/
def goModTemplate (projectName : String) : String :=
  "\nmodule " ++ projectName ++ "\n\ngo 1.22\n"

/-- `readmeTemplate` (init.go:271-280). -/
def readmeTemplate (projectName : String) : String :=
  "\n# " ++ projectName ++ "\n\nThis project was generated by the GoFlow CLI.\n\n## Development\n\n"

/-- `gitignoreTemplate` (init.go:282-288). -/
def gitignoreTemplate : String :=
  "\n# Compiled Wasm file\napp.wasm\n\n# JS glue file\nwasm_exec.js\n"

/-- Go `strings.TrimSpace`.  On these templates (ASCII whitespace only at the
edges) it coincides with `String.trim`. -/
def trimSpace (s : String) : String := s.trim

/-- The filesystem state `goflow init` touches: existing directory names, and
files keyed by (directory, file name). -/
structure FileSys where
  dirs : List String
  files : List ((String × String) × String)

/-- `os.WriteFile`: truncate an existing file or create a new one. -/
def writeFile (fs : FileSys) (path : String × String) (content : String) : FileSys :=
  if fs.files.any (fun e => e.1 == path) then
    ⟨fs.dirs, fs.files.map (fun e => if e.1 == path then (path, content) else e)⟩
  else ⟨fs.dirs, fs.files ++ [(path, content)]⟩

/-- `os.RemoveAll(projectName)`: delete the directory and everything under
it; errors are ignored (best-effort). -/
def removeAll (fs : FileSys) (dir : String) : FileSys :=
  ⟨fs.dirs.filter (fun d => !(d == dir)), fs.files.filter (fun e => !(e.1.1 == dir))⟩

/-- The files inside one directory. -/
def filesUnder (fs : FileSys) (dir : String) : List ((String × String) × String) :=
  fs.files.filter (fun e => e.1.1 == dir)

/-- Outcome of `runInit`: normal completion, or `os.Exit(1)` with the
filesystem in the state it had at that point. -/
inductive InitOutcome where
  | ok (fs : FileSys)
  | exited (fs : FileSys)

/-- `filesToCreate` (init.go:78-84).  In Go this is a map with unspecified
iteration order; the claims below only concern properties independent of the
write order, so the declaration order is used. -/
def filesToCreate (projectName : String) : List (String × String) :=
  [("main.go", mainGoTemplate), ("index.html", indexHTMLTemplate),
   ("go.mod", goModTemplate projectName), ("README.md", readmeTemplate projectName),
   (".gitignore", gitignoreTemplate)]

/-- The write loop of `runInit` (init.go:86-96): each file's content is
written with `strings.TrimSpace` applied; on a write error the project
directory is removed (best-effort cleanup) and the process exits.
`failWrites` is the fault model: the set of paths whose `os.WriteFile`
fails. -/
def writeLoop (failWrites : List (String × String)) (projectName : String) :
    FileSys → List (String × String) → InitOutcome
  | fs, [] => .ok fs
  | fs, (name, content) :: rest =>
      if failWrites.contains (projectName, name) then
        .exited (removeAll fs projectName)
      else
        writeLoop failWrites projectName
          (writeFile fs (projectName, name) (trimSpace content)) rest

/-- `runInit` (init.go:66-104): `os.Mkdir` fails when the directory already
exists (then the process exits with nothing changed); otherwise the directory
is created and the template files are written. -/
def runInit (fs : FileSys) (failWrites : List (String × String))
    (projectName : String) : InitOutcome :=
  if fs.dirs.contains projectName then .exited fs
  else
    writeLoop failWrites projectName ⟨projectName :: fs.dirs, fs.files⟩
      (filesToCreate projectName)

theorem writeFile_fresh (fs : FileSys) (path : String × String) (c : String)
    (h : fs.files.any (fun e => e.1 == path) = false) :
    writeFile fs path c = ⟨fs.dirs, fs.files ++ [(path, c)]⟩ := by
  simp [writeFile, h]

theorem contains_filter_self (l : List String) (a : String) :
    (l.filter (fun d => !(d == a))).contains a = false := by
  rw [List.contains_eq_any_beq, List.any_eq_false]
  intro x hx
  simp only [List.mem_filter, Bool.not_eq_true', beq_eq_false_iff_ne] at hx
  simp only [Bool.not_eq_true, beq_eq_false_iff_ne, ne_eq]
  exact fun h => hx.2 h.symm

theorem filesUnder_removeAll (fs : FileSys) (dir : String) :
    filesUnder (removeAll fs dir) dir = [] := by
  simp only [filesUnder, removeAll]
  rw [List.filter_filter]
  exact List.filter_eq_nil_iff.mpr (fun e _ => by simp)

/-- When every write succeeds on paths not yet present, the write loop
completes and appends exactly the trimmed contents, in order. -/
theorem writeLoop_ok (fw : List (String × String)) (pn : String) :
    ∀ (l : List (String × String)) (fs : FileSys),
    keysNodup l = true →
    (∀ f ∈ l, ∀ e ∈ fs.files, e.1 ≠ (pn, f.1)) →
    (∀ f ∈ l, fw.contains (pn, f.1) = false) →
    writeLoop fw pn fs l =
      .ok ⟨fs.dirs, fs.files ++ l.map (fun f => ((pn, f.1), trimSpace f.2))⟩ := by
  intro l
  induction l with
  | nil => intro fs _ _ _; simp [writeLoop]
  | cons f rest ih =>
      intro fs hnd hfresh hok
      obtain ⟨n, c⟩ := f
      simp only [keysNodup, Bool.and_eq_true] at hnd
      have hfw : fw.contains (pn, n) = false := hok (n, c) (List.mem_cons_self _ _)
      have hany : fs.files.any (fun e => e.1 == (pn, n)) = false := by
        rw [List.any_eq_false]
        intro e he
        simp only [Bool.not_eq_true]
        exact beq_eq_false_iff_ne.mpr (hfresh (n, c) (List.mem_cons_self _ _) e he)
      simp only [writeLoop, hfw, Bool.false_eq_true, if_false]
      rw [writeFile_fresh fs (pn, n) (trimSpace c) hany]
      rw [ih _ hnd.2 ?fresh2 (fun f2 hf2 => hok f2 (List.mem_cons_of_mem _ hf2))]
      · simp
      case fresh2 =>
        intro f2 hf2 e he
        rcases List.mem_append.mp he with he1 | he2
        · exact hfresh f2 (List.mem_cons_of_mem _ hf2) e he1
        · have hne : f2.1 ≠ n := by
            have h3 := (List.all_eq_true.mp hnd.1) f2 hf2
            simpa using h3
          rcases List.mem_singleton.mp he2 with rfl
          simp only [ne_eq, Prod.mk.injEq, not_and]
          exact fun _ h => hne h.symm

/-- When some write fails, the loop exits with the project directory removed
(best-effort cleanup): the directory is gone and no file under it remains. -/
theorem writeLoop_fail (fw : List (String × String)) (pn : String) :
    ∀ (l : List (String × String)) (fs : FileSys),
    l.any (fun f => fw.contains (pn, f.1)) = true →
    ∃ fs2, writeLoop fw pn fs l = .exited fs2 ∧
      fs2.dirs.contains pn = false ∧ filesUnder fs2 pn = [] := by
  intro l
  induction l with
  | nil => intro fs h; simp at h
  | cons f rest ih =>
      intro fs hany
      obtain ⟨n, c⟩ := f
      by_cases hfw : fw.contains (pn, n) = true
      · refine ⟨removeAll fs pn, ?_, ?_, filesUnder_removeAll fs pn⟩
        · simp only [writeLoop]
          rw [if_pos hfw]
        · exact contains_filter_self fs.dirs pn
      · have hfw2 : fw.contains (pn, n) = false := by simpa using hfw
        have hrest : rest.any (fun f => fw.contains (pn, f.1)) = true := by
          rw [List.any_cons] at hany
          simpa only [hfw2, Bool.false_or] using hany
        obtain ⟨fs2, h1, h2, h3⟩ := ih (writeFile fs (pn, n) (trimSpace c)) hrest
        refine ⟨fs2, ?_, h2, h3⟩
        simp only [writeLoop]
        rw [if_neg hfw]
        exact h1

theorem keysNodup_filesToCreate (pn : String) :
    keysNodup (filesToCreate pn) = true := by
  simp [filesToCreate, keysNodup]

/-- C1: For every VirtualNode tree T (a tree of the two-variant data model,
attribute keys unique), calling `Render` on the Renderer's bound container
first discards all existing host children and then makes the container's host
children exactly the depth-first structural mapping of T — same tag names,
attribute sets, text content and child order — with no node from any previous
render remaining. -/
theorem c1_render_installs_structural_map (r : Renderer) (c : Container)
    (T : VNode) (hbound : r.container = some c) (hwf : wellFormed T = true) :
    Render r (some T) = .done ⟨[specMapNode T]⟩ := by
  simp only [Render, hbound]
  rw [createDomNode_wf T hwf]
  simp

theorem c1_witness :
    (NewRenderer [("app", ⟨[DomNode.text "old"]⟩)] "app").container =
      some ⟨[DomNode.text "old"]⟩ ∧
    wellFormed (.mk .text "" [] [] "hi" []) = true ∧
    Render (NewRenderer [("app", ⟨[DomNode.text "old"]⟩)] "app")
      (some (.mk .text "" [] [] "hi" [])) =
      .done ⟨[specMapNode (.mk .text "" [] [] "hi" [])]⟩ := by
  have hwf : wellFormed (VNode.mk .text "" [] [] "hi" []) = true := by
    rw [wellFormed_iff]
    exact ⟨Or.inl rfl, rfl, by simp⟩
  exact ⟨rfl, hwf,
    c1_render_installs_structural_map _ ⟨[DomNode.text "old"]⟩ _ rfl hwf⟩

/-- C2: the claim says the Renderer extracts the host-reported current value
from the native change event and invokes the change callback with that value;
the code's listener wrapper (renderer.go:49-52) ignores the native event and
invokes the nullary Go callback with no arguments, so the host value "hello"
is never delivered. -/
theorem c2_change_callback_gets_no_value :
    ∃ d, createDomNode (inputVNode "Enter text..." 0) = some d ∧
      dispatchEvent d "change" "hello" = [Invocation.nullary 0] ∧
      Invocation.withValue 0 "hello" ∉ dispatchEvent d "change" "hello" := by
  refine ⟨DomNode.element "input"
    [("type", "text"), ("placeholder", "Enter text...")] [("change", 0)] [],
    ?_, by decide, by decide⟩
  show createDomNode (.mk .element "input"
    [("type", "text"), ("placeholder", "Enter text...")] [("change", 0)] "" []) = _
  rw [createDomNode_element]
  rfl

/-- C3: when the container identifier does not resolve to a host node,
`NewRenderer` stores JavaScript null and every later `Render` call hits the
`Value.Set`-on-null panic — an explicit failure observable when rendering is
attempted, never a silent no-op. -/
theorem c3_unresolved_container_render_panics (doc : List (String × Container))
    (id : String) (root : Option VNode) (h : getElementById doc id = none) :
    Render (NewRenderer doc id) root = .noContainer := by
  simp [Render, NewRenderer, h]

theorem c3_witness :
    getElementById [] "app" = none ∧
    Render (NewRenderer [] "app") none = .noContainer :=
  ⟨rfl, c3_unresolved_container_render_panics [] "app" none rfl⟩

/-- C4: `Render(null)` on any bound container — in particular a non-empty one
from a previous render — removes all existing host children and leaves the
container with zero children. -/
theorem c4_render_null_empties_container (r : Renderer) (c : Container)
    (h : r.container = some c) : Render r none = .done ⟨[]⟩ := by
  simp [Render, h]

theorem c4_witness :
    ({ container := some ⟨[DomNode.text "leftover", DomNode.text "stale"]⟩ } :
      Renderer).container = some ⟨[DomNode.text "leftover", DomNode.text "stale"]⟩ ∧
    Render { container := some ⟨[DomNode.text "leftover", DomNode.text "stale"]⟩ }
      none = .done ⟨[]⟩ :=
  ⟨rfl, c4_render_null_empties_container _ _ rfl⟩

/-- C5: instantiating an Element node processes its children in order,
appending each usable host node; a child whose instantiation yields no usable
node is omitted while every remaining sibling is still instantiated and
appended, and the element's own instantiation still succeeds. -/
theorem c5_unusable_child_omitted (tag : String) (props : List (String × String))
    (hs : List (String × Nat)) (txt : String) (cs1 cs2 : List VNode) (bad : VNode)
    (hbad : createDomNode bad = none) :
    createDomNode (.mk .element tag props hs txt (cs1 ++ bad :: cs2)) =
      some (.element tag (applyProps props) hs
        (cs1.filterMap createDomNode ++ cs2.filterMap createDomNode)) := by
  rw [createDomNode_element]
  simp [List.filterMap_append, List.filterMap_cons, hbad]

theorem c5_witness :
    createDomNode (.mk .other "" [] [] "" []) = none ∧
    createDomNode (.mk .element "div" [] [] ""
        ([VNode.mk .text "" [] [] "a" []] ++
          VNode.mk .other "" [] [] "" [] :: [VNode.mk .text "" [] [] "b" []])) =
      some (.element "div" (applyProps []) []
        ([VNode.mk .text "" [] [] "a" []].filterMap createDomNode ++
          [VNode.mk .text "" [] [] "b" []].filterMap createDomNode)) :=
  ⟨createDomNode_other "" [] [] "" [],
    c5_unusable_child_omitted "div" [] [] "" _ _ _ (createDomNode_other "" [] [] "" [])⟩

/-- C6: attribute values at the virtual-node boundary are strings (the
embedding models `Props` as string-valued, per the spec's data model), and
the renderer's `setAttribute` loop applies every key/value pair of an
Element's props as a host attribute of the created element. -/
theorem c6_every_prop_becomes_attribute (tag : String)
    (props : List (String × String)) (hs : List (String × Nat)) (txt : String)
    (cs : List VNode) (k v : String) (hnd : keysNodup props = true)
    (hmem : (k, v) ∈ props) :
    ∃ d, createDomNode (.mk .element tag props hs txt cs) = some d ∧
      d.getAttribute k = some v := by
  refine ⟨_, createDomNode_element tag props hs txt cs, ?_⟩
  simp only [DomNode.getAttribute]
  rw [applyProps_of_nodup props hnd, find?_of_mem_nodup props k v hnd hmem]
  rfl

theorem c6_witness :
    keysNodup [("class", "app"), ("id", "main")] = true ∧
    ("id", "main") ∈ [("class", "app"), ("id", "main")] ∧
    ∃ d, createDomNode (.mk .element "div" [("class", "app"), ("id", "main")]
        [] "" []) = some d ∧ d.getAttribute "id" = some "main" :=
  ⟨by decide, by decide,
    c6_every_prop_becomes_attribute "div" _ [] "" [] "id" "main"
      (by decide) (by decide)⟩

/-- C7: a Button built with a click callback, once rendered, yields a button
element on which each simulated host click event invokes the registered
callback exactly once: the invocation list of one dispatched click event is
exactly one invocation of that handler. -/
theorem c7_button_click_invokes_once (label : String) (h : Nat) (value : String) :
    ∃ d, createDomNode (buttonVNode label h) = some d ∧
      dispatchEvent d "click" value = [Invocation.nullary h] := by
  refine ⟨DomNode.element "button" [] [("click", h)] [DomNode.text label], ?_, rfl⟩
  show createDomNode (.mk .element "button" [] [("click", h)] ""
    [.mk .text "" [] [] label []]) = _
  rw [createDomNode_element]
  rw [List.filterMap_cons, createDomNode_text]
  rfl

/-- C8: `goflow init` fails when the directory already exists (nothing
changed); when no write fails it completes with the directory created; and
when a write fails it exits after best-effort cleanup that removes the
partially created directory and everything under it. -/
theorem c8_init_error_contract (fs : FileSys) (fw : List (String × String))
    (pn : String) :
    (fs.dirs.contains pn = true → runInit fs fw pn = .exited fs) ∧
    (fs.dirs.contains pn = false → (∀ e ∈ fs.files, e.1.1 ≠ pn) →
      (filesToCreate pn).all (fun f => !(fw.contains (pn, f.1))) = true →
      ∃ fs2, runInit fs fw pn = .ok fs2 ∧ fs2.dirs.contains pn = true) ∧
    (fs.dirs.contains pn = false →
      (filesToCreate pn).any (fun f => fw.contains (pn, f.1)) = true →
      ∃ fs2, runInit fs fw pn = .exited fs2 ∧ fs2.dirs.contains pn = false ∧
        filesUnder fs2 pn = []) := by
  refine ⟨fun h => by simp only [runInit]; rw [if_pos h], fun h hfr hok => ?_,
    fun h hfail => ?_⟩
  · have hok2 : ∀ f ∈ filesToCreate pn, fw.contains (pn, f.1) = false := by
      intro f hf
      have h3 := (List.all_eq_true.mp hok) f hf
      simpa using h3
    have hfr2 : ∀ f ∈ filesToCreate pn,
        ∀ e ∈ (⟨pn :: fs.dirs, fs.files⟩ : FileSys).files, e.1 ≠ (pn, f.1) := by
      intro f _ e he heq
      exact hfr e he (by rw [heq])
    have hrun : runInit fs fw pn = .ok ⟨pn :: fs.dirs,
        fs.files ++ (filesToCreate pn).map (fun f => ((pn, f.1), trimSpace f.2))⟩ := by
      simp only [runInit, h, Bool.false_eq_true, if_false]
      exact writeLoop_ok fw pn (filesToCreate pn) ⟨pn :: fs.dirs, fs.files⟩
        (keysNodup_filesToCreate pn) hfr2 hok2
    refine ⟨_, hrun, ?_⟩
    simp [List.contains_eq_any_beq]
  · obtain ⟨fs2, h1, h2, h3⟩ :=
      writeLoop_fail fw pn (filesToCreate pn) ⟨pn :: fs.dirs, fs.files⟩ hfail
    refine ⟨fs2, ?_, h2, h3⟩
    simp only [runInit, h, Bool.false_eq_true, if_false]
    exact h1

theorem c8_witness :
    runInit ⟨["taken"], []⟩ [] "taken" = .exited ⟨["taken"], []⟩ ∧
    (∃ fs2, runInit ⟨[], []⟩ [] "myapp" = .ok fs2 ∧
      fs2.dirs.contains "myapp" = true) ∧
    (∃ fs2, runInit ⟨[], []⟩ [("myapp", "go.mod")] "myapp" = .exited fs2 ∧
      fs2.dirs.contains "myapp" = false ∧ filesUnder fs2 "myapp" = []) :=
  ⟨(c8_init_error_contract ⟨["taken"], []⟩ [] "taken").1 (by decide),
    (c8_init_error_contract ⟨[], []⟩ [] "myapp").2.1 rfl (by simp)
      (by simp [filesToCreate]),
    (c8_init_error_contract ⟨[], []⟩ [("myapp", "go.mod")] "myapp").2.2 rfl
      (by simp [filesToCreate])⟩

/-- C9: after every `Render` call on a bound container the container has at
most one direct host child: exactly one (the materialized root) when the root
is non-null and instantiates to a usable host node, and zero when the root is
null; the renderer never appends more than one node directly to the
container. -/
theorem c9_container_has_at_most_one_child (r : Renderer) (c : Container)
    (root : Option VNode) (h : r.container = some c) :
    (∀ l, (Render r root).containerChildren = some l → l.length ≤ 1) ∧
    (root = none → (Render r root).containerChildren = some []) ∧
    (∀ v d, root = some v → createDomNode v = some d →
      (Render r root).containerChildren = some [d]) := by
  refine ⟨?_, fun hr => by simp [Render, h, hr, RenderResult.containerChildren], ?_⟩
  · intro l hl
    rcases root with _ | v
    · simp only [Render, h, RenderResult.containerChildren, Option.some.injEq] at hl
      subst hl
      simp
    · rcases hd : createDomNode v with _ | d
      · simp only [Render, h, hd, RenderResult.containerChildren,
          Option.some.injEq] at hl
        subst hl
        simp
      · simp only [Render, h, hd, RenderResult.containerChildren,
          Option.some.injEq] at hl
        subst hl
        simp
  · intro v d hr hd
    subst hr
    simp [Render, h, hd, RenderResult.containerChildren]

theorem c9_witness :
    ({ container := some ⟨[]⟩ } : Renderer).container = some ⟨[]⟩ ∧
    (some (VNode.mk .text "" [] [] "hi" []) = none →
      (Render { container := some ⟨[]⟩ }
        (some (VNode.mk .text "" [] [] "hi" []))).containerChildren = some []) ∧
    (Render { container := some ⟨[]⟩ }
      (some (VNode.mk .text "" [] [] "hi" []))).containerChildren =
      some [DomNode.text "hi"] :=
  ⟨rfl,
    (c9_container_has_at_most_one_child _ ⟨[]⟩ _ rfl).2.1,
    (c9_container_has_at_most_one_child _ ⟨[]⟩ _ rfl).2.2
      (VNode.mk .text "" [] [] "hi" []) (DomNode.text "hi") rfl
      (createDomNode_text "" [] [] "hi" [])⟩

/-- C10: for every accepted project name, `goflow init` writes exactly five
files into the new directory — main.go, index.html, go.mod, README.md and
.gitignore — each containing its template content with leading and trailing
whitespace trimmed. -/
theorem c10_writes_exactly_five_trimmed_files (fs : FileSys)
    (fw : List (String × String)) (pn : String)
    (h1 : fs.dirs.contains pn = false)
    (h2 : ∀ e ∈ fs.files, e.1.1 ≠ pn)
    (h3 : (filesToCreate pn).all (fun f => !(fw.contains (pn, f.1))) = true) :
    ∃ fs2, runInit fs fw pn = .ok fs2 ∧
      filesUnder fs2 pn =
        [((pn, "main.go"), trimSpace mainGoTemplate),
         ((pn, "index.html"), trimSpace indexHTMLTemplate),
         ((pn, "go.mod"), trimSpace (goModTemplate pn)),
         ((pn, "README.md"), trimSpace (readmeTemplate pn)),
         ((pn, ".gitignore"), trimSpace gitignoreTemplate)] := by
  have hok2 : ∀ f ∈ filesToCreate pn, fw.contains (pn, f.1) = false := by
    intro f hf
    have h4 := (List.all_eq_true.mp h3) f hf
    simpa using h4
  have hfr2 : ∀ f ∈ filesToCreate pn,
      ∀ e ∈ (⟨pn :: fs.dirs, fs.files⟩ : FileSys).files, e.1 ≠ (pn, f.1) := by
    intro f _ e he heq
    exact h2 e he (by rw [heq])
  have hrun : runInit fs fw pn = .ok ⟨pn :: fs.dirs,
      fs.files ++ (filesToCreate pn).map (fun f => ((pn, f.1), trimSpace f.2))⟩ := by
    simp only [runInit, h1, Bool.false_eq_true, if_false]
    exact writeLoop_ok fw pn (filesToCreate pn) ⟨pn :: fs.dirs, fs.files⟩
      (keysNodup_filesToCreate pn) hfr2 hok2
  refine ⟨_, hrun, ?_⟩
  simp only [filesUnder, List.filter_append]
  rw [List.filter_eq_nil_iff.mpr (fun e he => by simpa using h2 e he)]
  simp [filesToCreate]

theorem c10_witness :
    (⟨[], []⟩ : FileSys).dirs.contains "myapp" = false ∧
    (∃ fs2, runInit ⟨[], []⟩ [] "myapp" = .ok fs2 ∧
      filesUnder fs2 "myapp" =
        [(("myapp", "main.go"), trimSpace mainGoTemplate),
         (("myapp", "index.html"), trimSpace indexHTMLTemplate),
         (("myapp", "go.mod"), trimSpace (goModTemplate "myapp")),
         (("myapp", "README.md"), trimSpace (readmeTemplate "myapp")),
         (("myapp", ".gitignore"), trimSpace gitignoreTemplate)]) :=
  ⟨rfl, c10_writes_exactly_five_trimmed_files ⟨[], []⟩ [] "myapp" rfl (by simp)
    (by simp [filesToCreate])⟩

end GoFlow
